import Mathlib

/-!
Verification of the numerical core of openDCM: similarity transforms
(src/opendcm/core/transformation.hpp), the parallelism constraint kernel
(src/opengcm/module3d/parallel.hpp) and the cluster scaling contract
(exercised by src/test/clustermath.cpp).

Scalars are modelled as real numbers; 3-vectors and quaternions are
coordinate structures mirroring the Eigen types used by the source.
-/

set_option maxHeartbeats 1000000

noncomputable section

/-- A 3-dimensional vector, mirroring Eigen::Matrix<Scalar,3,1>. -/
@[ext]
structure Vec3 where
  x : ℝ
  y : ℝ
  z : ℝ

namespace Vec3

/-- The zero vector. -/
def zero : Vec3 := ⟨0, 0, 0⟩

instance : Add Vec3 := ⟨fun a b => ⟨a.x + b.x, a.y + b.y, a.z + b.z⟩⟩

instance : Sub Vec3 := ⟨fun a b => ⟨a.x - b.x, a.y - b.y, a.z - b.z⟩⟩

instance : Neg Vec3 := ⟨fun a => ⟨-a.x, -a.y, -a.z⟩⟩

instance : SMul ℝ Vec3 := ⟨fun c a => ⟨c * a.x, c * a.y, c * a.z⟩⟩

@[simp] theorem add_x (a b : Vec3) : (a + b).x = a.x + b.x := rfl

@[simp] theorem add_y (a b : Vec3) : (a + b).y = a.y + b.y := rfl

@[simp] theorem add_z (a b : Vec3) : (a + b).z = a.z + b.z := rfl

@[simp] theorem sub_x (a b : Vec3) : (a - b).x = a.x - b.x := rfl

@[simp] theorem sub_y (a b : Vec3) : (a - b).y = a.y - b.y := rfl

@[simp] theorem sub_z (a b : Vec3) : (a - b).z = a.z - b.z := rfl

@[simp] theorem neg_x (a : Vec3) : (-a).x = -a.x := rfl

@[simp] theorem neg_y (a : Vec3) : (-a).y = -a.y := rfl

@[simp] theorem neg_z (a : Vec3) : (-a).z = -a.z := rfl

@[simp] theorem smul_x (c : ℝ) (a : Vec3) : (c • a).x = c * a.x := rfl

@[simp] theorem smul_y (c : ℝ) (a : Vec3) : (c • a).y = c * a.y := rfl

@[simp] theorem smul_z (c : ℝ) (a : Vec3) : (c • a).z = c * a.z := rfl

@[simp] theorem zero_x : zero.x = 0 := rfl

@[simp] theorem zero_y : zero.y = 0 := rfl

@[simp] theorem zero_z : zero.z = 0 := rfl

@[simp] theorem zero_smul (v : Vec3) : (0 : ℝ) • v = zero := by
  ext <;> simp

@[simp] theorem add_zero (v : Vec3) : v + zero = v := by
  ext <;> simp

@[simp] theorem zero_add (v : Vec3) : zero + v = v := by
  ext <;> simp

/-- Dot product, mirroring Eigen's dot(). -/
def dot (a b : Vec3) : ℝ := a.x * b.x + a.y * b.y + a.z * b.z

/-- Cross product, mirroring Eigen's cross(). -/
def cross (a b : Vec3) : Vec3 :=
  ⟨a.y * b.z - a.z * b.y, a.z * b.x - a.x * b.z, a.x * b.y - a.y * b.x⟩

/-- Euclidean norm, mirroring Eigen's norm() = sqrt(squaredNorm()). -/
def norm (a : Vec3) : ℝ := Real.sqrt (a.dot a)

theorem dot_self_nonneg (a : Vec3) : 0 ≤ a.dot a := by
  simp only [dot]
  nlinarith [sq_nonneg a.x, sq_nonneg a.y, sq_nonneg a.z]

theorem norm_nonneg (a : Vec3) : 0 ≤ a.norm := Real.sqrt_nonneg _

end Vec3

/-- A quaternion, mirroring Eigen::Quaternion with coefficients (x,y,z,w). -/
@[ext]
structure Quat where
  w : ℝ
  x : ℝ
  y : ℝ
  z : ℝ

namespace Quat

/-- The identity quaternion. -/
def one : Quat := ⟨1, 0, 0, 0⟩

/-- Hamilton product, mirroring Eigen's quaternion operator*. -/
def mul (p q : Quat) : Quat :=
  ⟨p.w * q.w - p.x * q.x - p.y * q.y - p.z * q.z,
   p.w * q.x + p.x * q.w + p.y * q.z - p.z * q.y,
   p.w * q.y - p.x * q.z + p.y * q.w + p.z * q.x,
   p.w * q.z + p.x * q.y - p.y * q.x + p.z * q.w⟩

/-- Quaternion conjugate, mirroring Eigen's conjugate(). -/
def conj (q : Quat) : Quat := ⟨q.w, -q.x, -q.y, -q.z⟩

/-- Squared norm of the coefficient vector, mirroring Eigen's squaredNorm(). -/
def normSq (q : Quat) : ℝ := q.w ^ 2 + q.x ^ 2 + q.y ^ 2 + q.z ^ 2

/-- Norm of the coefficient vector, mirroring Eigen's norm(). -/
def norm (q : Quat) : ℝ := Real.sqrt q.normSq

instance : SMul ℝ Quat := ⟨fun c q => ⟨c * q.w, c * q.x, c * q.y, c * q.z⟩⟩

@[simp] theorem qsmul_w (c : ℝ) (q : Quat) : (c • q).w = c * q.w := rfl

@[simp] theorem qsmul_x (c : ℝ) (q : Quat) : (c • q).x = c * q.x := rfl

@[simp] theorem qsmul_y (c : ℝ) (q : Quat) : (c • q).y = c * q.y := rfl

@[simp] theorem qsmul_z (c : ℝ) (q : Quat) : (c • q).z = c * q.z := rfl

/-- Normalisation q / ‖q‖, mirroring Eigen's normalized()/normalize(). -/
def normalized (q : Quat) : Quat := (1 / q.norm) • q

/-- Eigen's Quaternion::inverse() = conjugate() / squaredNorm(). -/
def inverse (q : Quat) : Quat := (1 / q.normSq) • q.conj

/-- The vector (imaginary) part of a quaternion, mirroring Eigen's vec(). -/
def vec (q : Quat) : Vec3 := ⟨q.x, q.y, q.z⟩

/-- Embeds a 3-vector as a pure quaternion. -/
def ofVec (v : Vec3) : Quat := ⟨0, v.x, v.y, v.z⟩

/-- Rotation of a vector by a quaternion, mirroring Eigen's
_transformVector: uv = 2 * q.vec().cross(v); return v + q.w()*uv + q.vec().cross(uv).
This is the formula applied by Eigen's quaternion-vector operator*,
which the source uses in Transform::rotate and Transform::transform. -/
def transformVector (q : Quat) (v : Vec3) : Vec3 :=
  let uv : Vec3 := (2 : ℝ) • (q.vec.cross v)
  v + q.w • uv + q.vec.cross uv

theorem normSq_nonneg (q : Quat) : 0 ≤ q.normSq := by
  simp only [normSq]; positivity

theorem normSq_mul (p q : Quat) : (p.mul q).normSq = p.normSq * q.normSq := by
  simp only [mul, normSq]; ring

theorem normSq_conj (q : Quat) : q.conj.normSq = q.normSq := by
  simp only [conj, normSq]; ring

theorem normSq_smul (c : ℝ) (q : Quat) : (c • q).normSq = c ^ 2 * q.normSq := by
  simp only [normSq, qsmul_w, qsmul_x, qsmul_y, qsmul_z]; ring

theorem conj_mul (p q : Quat) : (p.mul q).conj = q.conj.mul p.conj := by
  ext <;> simp only [mul, conj] <;> ring

theorem mul_assoc (p q r : Quat) : (p.mul q).mul r = p.mul (q.mul r) := by
  ext <;> simp only [mul] <;> ring

theorem one_mul (q : Quat) : one.mul q = q := by
  ext <;> simp only [mul, one] <;> ring

theorem conj_mul_self (q : Quat) : q.conj.mul q = ⟨q.normSq, 0, 0, 0⟩ := by
  ext <;> simp only [mul, conj, normSq] <;> ring

theorem w_conjAction (q : Quat) (v : Vec3) :
    ((q.mul (ofVec v)).mul q.conj).w = 0 := by
  simp only [mul, ofVec, conj]; ring

theorem ofVec_vec (q : Quat) (h : q.w = 0) : ofVec q.vec = q := by
  ext <;> simp [ofVec, vec, h]

/-- The Eigen rotation formula agrees with quaternion conjugation up to a
defect proportional to (1 - ‖q‖²); in particular they coincide exactly on
unit quaternions. -/
theorem tv_eq (q : Quat) (v : Vec3) :
    q.transformVector v
      = ((q.mul (ofVec v)).mul q.conj).vec + (1 - q.normSq) • v := by
  ext <;>
    simp only [transformVector, mul, ofVec, conj, vec, normSq, Vec3.cross,
      Vec3.add_x, Vec3.add_y, Vec3.add_z, Vec3.smul_x, Vec3.smul_y,
      Vec3.smul_z] <;>
    ring

theorem tv_add (q : Quat) (u v : Vec3) :
    q.transformVector (u + v) = q.transformVector u + q.transformVector v := by
  ext <;>
    simp only [transformVector, Vec3.cross, Vec3.add_x, Vec3.add_y, Vec3.add_z,
      Vec3.smul_x, Vec3.smul_y, Vec3.smul_z] <;>
    ring

theorem tv_smul (q : Quat) (c : ℝ) (v : Vec3) :
    q.transformVector (c • v) = c • q.transformVector v := by
  ext <;>
    simp only [transformVector, Vec3.cross, Vec3.add_x, Vec3.add_y, Vec3.add_z,
      Vec3.smul_x, Vec3.smul_y, Vec3.smul_z] <;>
    ring

theorem tv_zero (q : Quat) : q.transformVector Vec3.zero = Vec3.zero := by
  ext <;>
    simp only [transformVector, Vec3.cross, Vec3.zero_x, Vec3.zero_y,
      Vec3.zero_z, Vec3.add_x, Vec3.add_y, Vec3.add_z, Vec3.smul_x,
      Vec3.smul_y, Vec3.smul_z] <;>
    ring

theorem tv_real (c : ℝ) (v : Vec3) :
    (Quat.mk c 0 0 0).transformVector v = v := by
  ext <;>
    simp only [transformVector, vec, Vec3.cross, Vec3.add_x, Vec3.add_y,
      Vec3.add_z, Vec3.smul_x, Vec3.smul_y, Vec3.smul_z] <;>
    ring

theorem one_tv (v : Vec3) : one.transformVector v = v := tv_real 1 v

/-- Rotation by a product of unit quaternions is the composite of the two
rotations. -/
theorem tv_comp (p q : Quat) (hp : p.normSq = 1) (hq : q.normSq = 1)
    (v : Vec3) :
    (p.mul q).transformVector v
      = p.transformVector (q.transformVector v) := by
  have hpq : (p.mul q).normSq = 1 := by rw [normSq_mul, hp, hq]; norm_num
  rw [tv_eq (p.mul q) v, hpq, tv_eq q v, hq, tv_eq p _, hp]
  simp only [sub_self, Vec3.zero_smul, Vec3.add_zero]
  rw [ofVec_vec _ (w_conjAction q v)]
  have hassoc : ((p.mul q).mul (ofVec v)).mul (p.mul q).conj
      = (p.mul ((q.mul (ofVec v)).mul q.conj)).mul p.conj := by
    rw [conj_mul]
    simp only [mul_assoc]
  rw [hassoc]

theorem normSq_normalized (q : Quat) (h : q.normSq ≠ 0) :
    q.normalized.normSq = 1 := by
  rw [normalized, normSq_smul, div_pow, one_pow, norm,
    Real.sq_sqrt (normSq_nonneg q)]
  field_simp

theorem normalized_of_normSq_one (q : Quat) (h : q.normSq = 1) :
    q.normalized = q := by
  ext <;> simp [normalized, norm, h]

theorem normalized_idem (q : Quat) (h : q.normSq ≠ 0) :
    q.normalized.normalized = q.normalized :=
  normalized_of_normSq_one _ (normSq_normalized q h)

theorem inverse_of_unit (q : Quat) (h : q.normSq = 1) :
    q.inverse = q.conj := by
  ext <;> simp [inverse, h]

theorem normSq_inverse (q : Quat) (h : q.normSq = 1) :
    q.inverse.normSq = 1 := by
  rw [inverse_of_unit q h, normSq_conj, h]

end Quat

/-- Similarity transform dcm::details::Transform<Scalar,3>: a quaternion
rotation, a translation vector and a uniform scale factor
(src/opendcm/core/transformation.hpp lines 33-48). -/
structure Transform where
  rotation : Quat
  translation : Vec3
  scale : ℝ

namespace Transform

/-- The default constructor / Identity(): identity rotation, zero
translation, scale 1 (transformation.hpp lines 144-146, 377-379). -/
def identityT : Transform := ⟨Quat.one, Vec3.zero, 1⟩

/-- Constructor Transform(const Rotation& r): stores r, zero translation,
scale 1, then normalizes the rotation (transformation.hpp lines 148-153). -/
def fromRotation (r : Quat) : Transform := ⟨r.normalized, Vec3.zero, 1⟩

/-- Constructor Transform(const Translation& t) (transformation.hpp
lines 155-158). -/
def fromTranslation (t : Vec3) : Transform := ⟨Quat.one, t, 1⟩

/-- Constructor Transform(const Scaling& s) (transformation.hpp
lines 160-163). -/
def fromScaling (s : ℝ) : Transform := ⟨Quat.one, Vec3.zero, s⟩

/-- Transform::transform(vec) and the identical operator*(vec):
vec = (m_rotation*vec + m_translation.vector())*m_scale.factor()
(transformation.hpp lines 343-348 and 350-354). -/
def transform (T : Transform) (v : Vec3) : Vec3 :=
  T.scale • (T.rotation.transformVector v + T.translation)

/-- Transform::setRotation: m_rotation = rotation.normalized()
(transformation.hpp lines 184-189). -/
def setRotationQ (T : Transform) (r : Quat) : Transform :=
  { T with rotation := r.normalized }

/-- Transform::rotate(rotation) and operator*=(rotation):
m_rotation = rotation.normalized() * m_rotation (transformation.hpp
lines 191-196 and 301-305). -/
def rotateQ (T : Transform) (r : Quat) : Transform :=
  { T with rotation := r.normalized.mul T.rotation }

/-- Transform::translate(translation) and operator*=(translation):
m_translation = m_translation * translation, which for Eigen translations
adds the two offset vectors (transformation.hpp lines 209-213, 262-265). -/
def translate (T : Transform) (t : Vec3) : Transform :=
  { T with translation := T.translation + t }

/-- Transform::scale(scalar) and operator*=(scaling): m_scale *= s
(transformation.hpp lines 219-223, 280-283). -/
def scaleBy (T : Transform) (s : ℝ) : Transform :=
  { T with scale := T.scale * s }

/-- Transform::invert: m_rotation = m_rotation.inverse();
m_translation = (m_rotation * m_translation) * (-m_scale) with the already
inverted rotation and the old scale; m_scale = 1/m_scale
(transformation.hpp lines 235-241). -/
def invert (T : Transform) : Transform :=
  ⟨T.rotation.inverse,
   (-T.scale) • (T.rotation.inverse.transformVector T.translation),
   1 / T.scale⟩

/-- Transform::setIdentity (transformation.hpp lines 369-374). -/
def setIdentity (_T : Transform) : Transform := identityT

/-- Transform::normalize: m_rotation.normalize() (transformation.hpp
lines 381-385). -/
def normalize (T : Transform) : Transform :=
  { T with rotation := T.rotation.normalized }

/-- Transform::operator=(const Translation&): keeps t, resets rotation and
scale (transformation.hpp lines 249-255). -/
def assignTranslation (_T : Transform) (t : Vec3) : Transform :=
  ⟨Quat.one, t, 1⟩

/-- Transform::operator=(const Scaling&): keeps s, resets rotation and
translation (transformation.hpp lines 267-273). -/
def assignScaling (_T : Transform) (s : ℝ) : Transform :=
  ⟨Quat.one, Vec3.zero, s⟩

/-- Transform::operator=(const RotationBase&): stores r, normalizes it,
resets translation and scale (transformation.hpp lines 285-293). -/
def assignRotation (_T : Transform) (r : Quat) : Transform :=
  ⟨r.normalized, Vec3.zero, 1⟩

/-- Transform::operator*=(const Transform& other) (and operator*, which
copies then calls it): first rotate(other.rotation()), then rotate the own
translation by other's stored rotation, then add other's translation
divided by the still unchanged own scale, finally multiply the scales
(transformation.hpp lines 307-320). -/
def compose (A B : Transform) : Transform :=
  ⟨B.rotation.normalized.mul A.rotation,
   B.rotation.transformVector A.translation + (1 / A.scale) • B.translation,
   A.scale * B.scale⟩

end Transform

/-- The possible directions of a parallelism constraint
(src/opengcm/module3d/parallel.hpp line 28). -/
inductive Direction where
  | Same : Direction
  | Opposite : Direction
  | Both : Direction
deriving DecidableEq

namespace parallel

open Direction (Same Both)

/-- parallel::calc (parallel.hpp lines 33-49); named pcalc because calc is
a Lean keyword. Same: ‖d1-d2‖; Opposite: ‖d1+d2‖; Both: the Same formula
when d1.dot(d2) >= 0, the Opposite formula otherwise. -/
def pcalc (d1 d2 : Vec3) (dir : Direction) : ℝ :=
  match dir with
  | Same => (d1 - d2).norm
  | Direction.Opposite => (d1 + d2).norm
  | Both => if 0 ≤ d1.dot d2 then (d1 - d2).norm else (d1 + d2).norm

/-- parallel::calcGradFirst (parallel.hpp lines 52-69). -/
def calcGradFirst (d1 d2 dd1 : Vec3) (dir : Direction) : ℝ :=
  match dir with
  | Same => (d1 - d2).dot dd1 / (d1 - d2).norm
  | Direction.Opposite => (d1 + d2).dot dd1 / (d1 + d2).norm
  | Both =>
      if 0 ≤ d1.dot d2 then (d1 - d2).dot dd1 / (d1 - d2).norm
      else (d1 + d2).dot dd1 / (d1 + d2).norm

/-- parallel::calcGradSecond (parallel.hpp lines 71-88). -/
def calcGradSecond (d1 d2 dd2 : Vec3) (dir : Direction) : ℝ :=
  match dir with
  | Same => (d1 - d2).dot (-dd2) / (d1 - d2).norm
  | Direction.Opposite => (d1 + d2).dot dd2 / (d1 + d2).norm
  | Both =>
      if 0 ≤ d1.dot d2 then (d1 - d2).dot (-dd2) / (d1 - d2).norm
      else (d1 + d2).dot dd2 / (d1 + d2).norm

/-- parallel::calcGradFirstComp (parallel.hpp lines 90-106): writes the
closed-form gradient into the out-parameter for Same and Opposite; for
Both it hits assert(false), modelled as none. -/
def calcGradFirstComp (d1 d2 : Vec3) (dir : Direction) : Option Vec3 :=
  match dir with
  | Same => some ((1 / (d1 - d2).norm) • (d1 - d2))
  | Direction.Opposite => some ((1 / (d1 + d2).norm) • (d1 + d2))
  | Both => none

/-- parallel::calcGradSecondComp (parallel.hpp lines 108-124): writes the
closed-form gradient into the out-parameter for Same and Opposite; for
Both it hits assert(false), modelled as none. -/
def calcGradSecondComp (d1 d2 : Vec3) (dir : Direction) : Option Vec3 :=
  match dir with
  | Same => some ((1 / (d1 - d2).norm) • (d2 - d1))
  | Direction.Opposite => some ((1 / (d1 + d2).norm) • (d2 + d1))
  | Both => none

end parallel

/-- A six-component parameter block of a directional primitive, split as
Eigen's head<3>() (position) and tail<3>() / segment<3>(3) (direction).
Modelled from the spec: the tag layouts of line3D/plane3D/cylinder3D come
from geometry.hpp, which is not under src/; per the spec a block carries a
position sub-vector and a direction sub-vector, the direction at fixed
offset 3 for line/plane (tail<3>) and for cylinder axes (segment<3>(3)). -/
structure ParamBlock where
  pos : Vec3
  dir : Vec3

/-- Parallel3D<line3D,line3D>::calculateGradientFirstComplete
(parallel.hpp lines 177-180): zeroes gradient.head<3>() and writes
calcGradFirstComp into gradient.tail<3>(); none models the Both assert. -/
def lineGradFirstComplete (p1 p2 : ParamBlock) (_g : ParamBlock)
    (dir : Direction) : Option ParamBlock :=
  match parallel.calcGradFirstComp p1.dir p2.dir dir with
  | none => none
  | some v => some ⟨Vec3.zero, v⟩

/-- Parallel3D<line3D,line3D>::calculateGradientSecondComplete
(parallel.hpp lines 181-184). -/
def lineGradSecondComplete (p1 p2 : ParamBlock) (_g : ParamBlock)
    (dir : Direction) : Option ParamBlock :=
  match parallel.calcGradSecondComp p1.dir p2.dir dir with
  | none => none
  | some v => some ⟨Vec3.zero, v⟩

/-- Parallel3D<cylinder3D,cylinder3D>::calculateGradientFirstComplete
(parallel.hpp lines 217-220): zeroes gradient.head<3>() and writes
calcGradFirstComp into gradient.segment<3>(3). -/
def cylinderGradFirstComplete (p1 p2 : ParamBlock) (_g : ParamBlock)
    (dir : Direction) : Option ParamBlock :=
  match parallel.calcGradFirstComp p1.dir p2.dir dir with
  | none => none
  | some v => some ⟨Vec3.zero, v⟩

/-- Parallel3D<cylinder3D,cylinder3D>::calculateGradientSecondComplete
(parallel.hpp lines 221-224). -/
def cylinderGradSecondComplete (p1 p2 : ParamBlock) (_g : ParamBlock)
    (dir : Direction) : Option ParamBlock :=
  match parallel.calcGradSecondComp p1.dir p2.dir dir with
  | none => none
  | some v => some ⟨Vec3.zero, v⟩

/-- Modelled from the spec: ClusterMath::calculateClusterScale is not
under src/ (only its test, src/test/clustermath.cpp, is); the spec states
midpoint = mean(topLocal over members). -/
def clusterMidpoint (pts : List Vec3) : Vec3 :=
  ((pts.length : ℝ))⁻¹ • (pts.foldl (fun a b => a + b) Vec3.zero)

/-- Modelled from the spec: ClusterMath::calculateClusterScale is not
under src/ (only its test is). Per the spec it returns exactly 0 for a
single member and otherwise a characteristic radius; the spec states that
the mean distance to the midpoint satisfies the contract, which is the
summary statistic chosen here. -/
def computeScale (pts : List Vec3) : ℝ :=
  if pts.length = 1 then 0
  else ((pts.length : ℝ))⁻¹ * ((pts.map (fun p => (p - clusterMidpoint pts).norm)).sum)

namespace Vec3

@[simp] theorem smul_zero (c : ℝ) : c • zero = zero := by
  ext <;> simp

@[simp] theorem one_smul (v : Vec3) : (1 : ℝ) • v = v := by
  ext <;> simp

end Vec3

namespace Quat

theorem normSq_one : one.normSq = 1 := by
  simp [one, normSq]

theorem normalized_one : one.normalized = one :=
  normalized_of_normSq_one one normSq_one

end Quat

/-- Squared norms of difference and sum differ by four times the dot
product. -/
theorem dot_sub_add (d1 d2 : Vec3) :
    (d1 + d2).dot (d1 + d2) - (d1 - d2).dot (d1 - d2) = 4 * d1.dot d2 := by
  simp only [Vec3.dot, Vec3.add_x, Vec3.add_y, Vec3.add_z, Vec3.sub_x,
    Vec3.sub_y, Vec3.sub_z]
  ring

/-- C3: the parallelism residual is ‖d1−d2‖ for Same, ‖d1+d2‖ for
Opposite; for Both it is ‖d1−d2‖ when dot(d1,d2) ≥ 0 (the tie at exactly 0
included) and ‖d1+d2‖ otherwise; concretely the residual of (1,0,0) and
(0,1,0) in Same mode is √2. -/
theorem parallel_calc_spec (d1 d2 : Vec3) :
    parallel.pcalc d1 d2 Direction.Same = (d1 - d2).norm ∧
    parallel.pcalc d1 d2 Direction.Opposite = (d1 + d2).norm ∧
    (0 ≤ d1.dot d2 → parallel.pcalc d1 d2 Direction.Both = (d1 - d2).norm) ∧
    (d1.dot d2 < 0 → parallel.pcalc d1 d2 Direction.Both = (d1 + d2).norm) ∧
    (d1.dot d2 = 0 → parallel.pcalc d1 d2 Direction.Both = (d1 - d2).norm) ∧
    parallel.pcalc ⟨1, 0, 0⟩ ⟨0, 1, 0⟩ Direction.Same = Real.sqrt 2 := by
  refine ⟨rfl, rfl, ?_, ?_, ?_, ?_⟩
  · intro h
    simp [parallel.pcalc, h]
  · intro h
    simp [parallel.pcalc, not_le.mpr h]
  · intro h
    simp [parallel.pcalc, h]
  · simp only [parallel.pcalc, Vec3.norm, Vec3.dot, Vec3.sub_x, Vec3.sub_y,
      Vec3.sub_z]
    norm_num

/-- Witness for C3: instantiates the Both-mode branches at concrete
inputs, discharging the sign hypotheses. -/
theorem parallel_calc_spec_witness :
    parallel.pcalc ⟨1, 0, 0⟩ ⟨1, 0, 0⟩ Direction.Both
      = ((⟨1, 0, 0⟩ : Vec3) - ⟨1, 0, 0⟩).norm ∧
    parallel.pcalc ⟨1, 0, 0⟩ ⟨-1, 0, 0⟩ Direction.Both
      = ((⟨1, 0, 0⟩ : Vec3) + ⟨-1, 0, 0⟩).norm :=
  ⟨(parallel_calc_spec ⟨1, 0, 0⟩ ⟨1, 0, 0⟩).2.2.1 (by norm_num [Vec3.dot]),
   (parallel_calc_spec ⟨1, 0, 0⟩ ⟨-1, 0, 0⟩).2.2.2.1 (by norm_num [Vec3.dot])⟩

/-- C5: in Both mode the residual and both directional gradients all
select the branch dictated by the sign of dot(d1,d2): the Same formula
when the dot product is nonnegative, the Opposite formula otherwise, so
branch selection never diverges between the residual and its gradients. -/
theorem parallel_both_branch_consistent (d1 d2 dd1 dd2 : Vec3) :
    parallel.pcalc d1 d2 Direction.Both
      = parallel.pcalc d1 d2
          (if 0 ≤ d1.dot d2 then Direction.Same else Direction.Opposite) ∧
    parallel.calcGradFirst d1 d2 dd1 Direction.Both
      = parallel.calcGradFirst d1 d2 dd1
          (if 0 ≤ d1.dot d2 then Direction.Same else Direction.Opposite) ∧
    parallel.calcGradSecond d1 d2 dd2 Direction.Both
      = parallel.calcGradSecond d1 d2 dd2
          (if 0 ≤ d1.dot d2 then Direction.Same else Direction.Opposite) := by
  by_cases h : 0 ≤ d1.dot d2 <;>
    simp [parallel.pcalc, parallel.calcGradFirst, parallel.calcGradSecond, h]

/-- C6: calling a full-gradient function with Both aborts (none); under
the precondition dir ∈ {Same, Opposite} the functions return the
closed-form gradients (d1−d2)/‖d1−d2‖, (d2−d1)/‖d1−d2‖, (d1+d2)/‖d1+d2‖
and (d2+d1)/‖d1+d2‖ respectively. -/
theorem fullGradient_spec (d1 d2 : Vec3) :
    parallel.calcGradFirstComp d1 d2 Direction.Both = none ∧
    parallel.calcGradSecondComp d1 d2 Direction.Both = none ∧
    parallel.calcGradFirstComp d1 d2 Direction.Same
      = some ((1 / (d1 - d2).norm) • (d1 - d2)) ∧
    parallel.calcGradFirstComp d1 d2 Direction.Opposite
      = some ((1 / (d1 + d2).norm) • (d1 + d2)) ∧
    parallel.calcGradSecondComp d1 d2 Direction.Same
      = some ((1 / (d1 - d2).norm) • (d2 - d1)) ∧
    parallel.calcGradSecondComp d1 d2 Direction.Opposite
      = some ((1 / (d1 + d2).norm) • (d2 + d1)) :=
  ⟨rfl, rfl, rfl, rfl, rfl, rfl⟩

/-- C10: the Both-mode residual is the minimum of the two oriented
residuals, because dot(d1,d2) ≥ 0 holds exactly when ‖d1−d2‖ ≤ ‖d1+d2‖. -/
theorem parallel_both_is_min (d1 d2 : Vec3) :
    parallel.pcalc d1 d2 Direction.Both
      = min (parallel.pcalc d1 d2 Direction.Same)
          (parallel.pcalc d1 d2 Direction.Opposite) ∧
    (0 ≤ d1.dot d2 ↔ (d1 - d2).norm ≤ (d1 + d2).norm) := by
  have hkey : 0 ≤ d1.dot d2
      ↔ (d1 - d2).dot (d1 - d2) ≤ (d1 + d2).dot (d1 + d2) := by
    have h4 := dot_sub_add d1 d2
    constructor <;> intro h <;> nlinarith
  have hiff : 0 ≤ d1.dot d2 ↔ (d1 - d2).norm ≤ (d1 + d2).norm := by
    rw [hkey, Vec3.norm, Vec3.norm,
      Real.sqrt_le_sqrt_iff (Vec3.dot_self_nonneg _)]
  refine ⟨?_, hiff⟩
  by_cases h : 0 ≤ d1.dot d2
  · rw [show parallel.pcalc d1 d2 Direction.Both = (d1 - d2).norm from
      if_pos h, parallel.pcalc, parallel.pcalc,
      min_eq_left (hiff.mp h)]
  · rw [show parallel.pcalc d1 d2 Direction.Both = (d1 + d2).norm from
      if_neg h, parallel.pcalc, parallel.pcalc]
    have hle : (d1 + d2).norm ≤ (d1 - d2).norm := by
      have := mt hiff.mpr h
      exact le_of_not_le this
    rw [min_eq_right hle]

/-- C1: for similarity transforms with positive scales and unit
rotations, the transform composed by operator*/operator*= acts as "A
first, then B": (A*B) applied to v equals B applied to (A applied to v),
where a transform acts on v by T(v) = scale*(rotation*v + translation). -/
theorem compose_applies_first_then_second (A B : Transform)
    (hA : 0 < A.scale) (_hB : 0 < B.scale)
    (hrA : A.rotation.normSq = 1) (hrB : B.rotation.normSq = 1) (v : Vec3) :
    (A.compose B).transform v = B.transform (A.transform v) := by
  have hAne : A.scale ≠ 0 := ne_of_gt hA
  unfold Transform.compose Transform.transform
  rw [Quat.normalized_of_normSq_one _ hrB, Quat.tv_comp _ _ hrB hrA,
    Quat.tv_smul, Quat.tv_add]
  ext <;>
    simp only [Vec3.add_x, Vec3.add_y, Vec3.add_z, Vec3.smul_x, Vec3.smul_y,
      Vec3.smul_z] <;>
    field_simp <;>
    ring

/-- Witness for C1 at concrete transforms and vector. -/
theorem compose_applies_first_then_second_witness :
    (Transform.compose ⟨⟨1, 0, 0, 0⟩, ⟨1, 2, 3⟩, 2⟩
        ⟨⟨0, 0, 0, 1⟩, ⟨4, 5, 6⟩, 3⟩).transform ⟨1, 1, 1⟩
      = Transform.transform ⟨⟨0, 0, 0, 1⟩, ⟨4, 5, 6⟩, 3⟩
          (Transform.transform ⟨⟨1, 0, 0, 0⟩, ⟨1, 2, 3⟩, 2⟩ ⟨1, 1, 1⟩) :=
  compose_applies_first_then_second _ _ (by norm_num) (by norm_num)
    (by norm_num [Quat.normSq]) (by norm_num [Quat.normSq]) _

/-- C2: for a transform with nonzero scale and unit rotation, applying
invert(T) to T(v) returns v, and composing T with invert(T) acts as the
identity on every vector. -/
theorem invert_transform_roundtrip (T : Transform) (hs : T.scale ≠ 0)
    (hr : T.rotation.normSq = 1) (v : Vec3) :
    T.invert.transform (T.transform v) = v ∧
    (T.compose T.invert).transform v = v := by
  have hconj : T.rotation.conj.normSq = 1 := by
    rw [Quat.normSq_conj]; exact hr
  have hc : T.rotation.conj.transformVector (T.rotation.transformVector v)
      = v := by
    rw [← Quat.tv_comp _ _ hconj hr v, Quat.conj_mul_self, hr, Quat.tv_real]
  constructor
  · unfold Transform.invert Transform.transform
    rw [Quat.inverse_of_unit _ hr, Quat.tv_smul, Quat.tv_add, hc]
    ext <;>
      simp only [Vec3.add_x, Vec3.add_y, Vec3.add_z, Vec3.smul_x, Vec3.smul_y,
        Vec3.smul_z] <;>
      field_simp <;>
      ring
  · unfold Transform.invert Transform.compose Transform.transform
    rw [Quat.inverse_of_unit _ hr,
      Quat.normalized_of_normSq_one _ hconj, Quat.conj_mul_self, hr,
      Quat.tv_real]
    ext <;>
      simp only [Vec3.add_x, Vec3.add_y, Vec3.add_z, Vec3.smul_x, Vec3.smul_y,
        Vec3.smul_z] <;>
      field_simp <;>
      ring

/-- Witness for C2 at a concrete transform and vector. -/
theorem invert_transform_roundtrip_witness :
    (Transform.invert ⟨⟨0, 1, 0, 0⟩, ⟨7, 8, 9⟩, 5⟩).transform
        (Transform.transform ⟨⟨0, 1, 0, 0⟩, ⟨7, 8, 9⟩, 5⟩ ⟨1, 2, 3⟩) = ⟨1, 2, 3⟩ ∧
    (Transform.compose ⟨⟨0, 1, 0, 0⟩, ⟨7, 8, 9⟩, 5⟩
        (Transform.invert ⟨⟨0, 1, 0, 0⟩, ⟨7, 8, 9⟩, 5⟩)).transform ⟨1, 2, 3⟩
      = ⟨1, 2, 3⟩ :=
  invert_transform_roundtrip _ (by norm_num) (by norm_num [Quat.normSq]) _

/-- Counterexample for C4: rotate only updates the rotation field, while
composing with a rotation-only transform additionally rotates the stored
translation; at A = (identity rotation, translation (1,0,0), scale 1) and
the unit quaternion (0,0,0,1) the two results differ in translation. -/
theorem rotate_ne_compose_counterexample :
    Transform.rotateQ ⟨⟨1, 0, 0, 0⟩, ⟨1, 0, 0⟩, 1⟩ ⟨0, 0, 0, 1⟩
      ≠ Transform.compose ⟨⟨1, 0, 0, 0⟩, ⟨1, 0, 0⟩, 1⟩
          (Transform.fromRotation ⟨0, 0, 0, 1⟩) := by
  intro h
  have hx := congrArg (fun T => T.translation.x) h
  simp only [Transform.rotateQ, Transform.compose, Transform.fromRotation,
    Quat.normalized, Quat.norm, Quat.normSq, Quat.transformVector, Quat.vec,
    Vec3.cross, Vec3.add_x, Vec3.smul_x, Vec3.zero_x] at hx
  norm_num [Real.sqrt_one] at hx

/-- C4 amended: rotate and translate update only their own field
(rotation' = normalized(r) ∘ rotation; translation' = translation + t);
in general they differ from composing A with the single-field transform,
which additionally rotates A's translation (rotation case) or adds
t/A.scale instead of t (translation case); sufficient conditions for
agreement are A.translation = 0 (rotation case, for nonzero r) and
A.scale = 1 (translation case). -/
theorem single_field_ops_amended (A : Transform) (r : Quat) (t : Vec3) :
    A.rotateQ r = ⟨r.normalized.mul A.rotation, A.translation, A.scale⟩ ∧
    A.translate t = ⟨A.rotation, A.translation + t, A.scale⟩ ∧
    (r.normSq ≠ 0 → A.translation = Vec3.zero →
      A.rotateQ r = A.compose (Transform.fromRotation r)) ∧
    (A.scale = 1 → A.translate t = A.compose (Transform.fromTranslation t)) := by
  refine ⟨rfl, rfl, ?_, ?_⟩
  · intro hr h0
    simp [Transform.rotateQ, Transform.compose, Transform.fromRotation,
      Quat.normalized_idem _ hr, h0, Quat.tv_zero]
  · intro h1
    simp [Transform.translate, Transform.compose, Transform.fromTranslation,
      Quat.normalized_one, Quat.one_mul, Quat.one_tv, h1]

/-- Witness for the amended C4 at a transform with zero translation and
unit scale. -/
theorem single_field_ops_amended_witness :
    Transform.rotateQ ⟨⟨1, 0, 0, 0⟩, Vec3.zero, 1⟩ ⟨0, 0, 0, 1⟩
      = Transform.compose ⟨⟨1, 0, 0, 0⟩, Vec3.zero, 1⟩
          (Transform.fromRotation ⟨0, 0, 0, 1⟩) ∧
    Transform.translate ⟨⟨1, 0, 0, 0⟩, Vec3.zero, 1⟩ ⟨4, 5, 6⟩
      = Transform.compose ⟨⟨1, 0, 0, 0⟩, Vec3.zero, 1⟩
          (Transform.fromTranslation ⟨4, 5, 6⟩) :=
  ⟨(single_field_ops_amended ⟨⟨1, 0, 0, 0⟩, Vec3.zero, 1⟩ ⟨0, 0, 0, 1⟩
      ⟨4, 5, 6⟩).2.2.1 (by norm_num [Quat.normSq]) rfl,
   (single_field_ops_amended ⟨⟨1, 0, 0, 0⟩, Vec3.zero, 1⟩ ⟨0, 0, 0, 1⟩
      ⟨4, 5, 6⟩).2.2.2 rfl⟩

/-- C7: starting from a transform whose rotation is unit-norm (and with
nonzero quaternion operands, as a rotation operand must be), the rotation
field is again unit-norm after every mutating operation: construction from
a rotation, setRotation, rotate, translate, scale, invert, setIdentity,
normalize, the assignment operators and composition via operator*=. -/
theorem rotation_unit_invariant (T other : Transform) (r : Quat) (t : Vec3)
    (s : ℝ) (hT : T.rotation.normSq = 1) (ho : other.rotation.normSq ≠ 0)
    (hr : r.normSq ≠ 0) :
    (Transform.fromRotation r).rotation.normSq = 1 ∧
    (T.setRotationQ r).rotation.normSq = 1 ∧
    (T.rotateQ r).rotation.normSq = 1 ∧
    (T.translate t).rotation.normSq = 1 ∧
    (T.scaleBy s).rotation.normSq = 1 ∧
    T.invert.rotation.normSq = 1 ∧
    T.setIdentity.rotation.normSq = 1 ∧
    T.normalize.rotation.normSq = 1 ∧
    (T.assignTranslation t).rotation.normSq = 1 ∧
    (T.assignScaling s).rotation.normSq = 1 ∧
    (T.assignRotation r).rotation.normSq = 1 ∧
    (T.compose other).rotation.normSq = 1 := by
  refine ⟨Quat.normSq_normalized r hr, Quat.normSq_normalized r hr, ?_, hT,
    hT, Quat.normSq_inverse _ hT, Quat.normSq_one, ?_, Quat.normSq_one,
    Quat.normSq_one, Quat.normSq_normalized r hr, ?_⟩
  · show (r.normalized.mul T.rotation).normSq = 1
    rw [Quat.normSq_mul, Quat.normSq_normalized r hr, hT]
    norm_num
  · show T.rotation.normalized.normSq = 1
    exact Quat.normSq_normalized _ (by rw [hT]; norm_num)
  · show (other.rotation.normalized.mul T.rotation).normSq = 1
    rw [Quat.normSq_mul, Quat.normSq_normalized _ ho, hT]
    norm_num

/-- Witness for C7 at concrete operands. -/
theorem rotation_unit_invariant_witness :
    (Transform.rotateQ ⟨⟨1, 0, 0, 0⟩, ⟨1, 2, 3⟩, 2⟩ ⟨0, 2, 0, 0⟩).rotation.normSq
      = 1 ∧
    (Transform.invert ⟨⟨1, 0, 0, 0⟩, ⟨1, 2, 3⟩, 2⟩).rotation.normSq = 1 :=
  ⟨(rotation_unit_invariant ⟨⟨1, 0, 0, 0⟩, ⟨1, 2, 3⟩, 2⟩
      ⟨⟨0, 0, 1, 0⟩, ⟨4, 5, 6⟩, 3⟩ ⟨0, 2, 0, 0⟩ ⟨1, 1, 1⟩ 5
      (by norm_num [Quat.normSq]) (by norm_num [Quat.normSq])
      (by norm_num [Quat.normSq])).2.2.1,
   (rotation_unit_invariant ⟨⟨1, 0, 0, 0⟩, ⟨1, 2, 3⟩, 2⟩
      ⟨⟨0, 0, 1, 0⟩, ⟨4, 5, 6⟩, 3⟩ ⟨0, 2, 0, 0⟩ ⟨1, 1, 1⟩ 5
      (by norm_num [Quat.normSq]) (by norm_num [Quat.normSq])
      (by norm_num [Quat.normSq])).2.2.2.2.2.1⟩

/-- C8: for dir ∈ {Same, Opposite}, the complete-gradient entry points of
the line/plane and cylinder specialisations zero the position sub-vector
and write only the direction sub-vector of the parameter block, so every
non-direction component of the returned gradient is zero. -/
theorem gradient_nondirection_zero (p1 p2 g : ParamBlock) :
    lineGradFirstComplete p1 p2 g Direction.Same
      = some ⟨Vec3.zero, (1 / (p1.dir - p2.dir).norm) • (p1.dir - p2.dir)⟩ ∧
    lineGradFirstComplete p1 p2 g Direction.Opposite
      = some ⟨Vec3.zero, (1 / (p1.dir + p2.dir).norm) • (p1.dir + p2.dir)⟩ ∧
    lineGradSecondComplete p1 p2 g Direction.Same
      = some ⟨Vec3.zero, (1 / (p1.dir - p2.dir).norm) • (p2.dir - p1.dir)⟩ ∧
    lineGradSecondComplete p1 p2 g Direction.Opposite
      = some ⟨Vec3.zero, (1 / (p1.dir + p2.dir).norm) • (p2.dir + p1.dir)⟩ ∧
    cylinderGradFirstComplete p1 p2 g Direction.Same
      = some ⟨Vec3.zero, (1 / (p1.dir - p2.dir).norm) • (p1.dir - p2.dir)⟩ ∧
    cylinderGradFirstComplete p1 p2 g Direction.Opposite
      = some ⟨Vec3.zero, (1 / (p1.dir + p2.dir).norm) • (p1.dir + p2.dir)⟩ ∧
    cylinderGradSecondComplete p1 p2 g Direction.Same
      = some ⟨Vec3.zero, (1 / (p1.dir - p2.dir).norm) • (p2.dir - p1.dir)⟩ ∧
    cylinderGradSecondComplete p1 p2 g Direction.Opposite
      = some ⟨Vec3.zero, (1 / (p1.dir + p2.dir).norm) • (p2.dir + p1.dir)⟩ :=
  ⟨rfl, rfl, rfl, rfl, rfl, rfl, rfl, rfl⟩

/-- Counterexample for C9: for the three collinear members (0,0,0),
(0,0,0), (0,0,3) the midpoint is (0,0,1) and the scale is 4/3, so the
first member's distance ratio is 3/4, below the claimed band bound
0.7999. -/
theorem computeScale_band_counterexample :
    2 ≤ ([⟨0, 0, 0⟩, ⟨0, 0, 0⟩, ⟨0, 0, 3⟩] : List Vec3).length ∧
    (⟨0, 0, 0⟩ : Vec3) ∈ ([⟨0, 0, 0⟩, ⟨0, 0, 0⟩, ⟨0, 0, 3⟩] : List Vec3) ∧
    ((⟨0, 0, 0⟩ : Vec3)
        - clusterMidpoint [⟨0, 0, 0⟩, ⟨0, 0, 0⟩, ⟨0, 0, 3⟩]).norm
      / computeScale [⟨0, 0, 0⟩, ⟨0, 0, 0⟩, ⟨0, 0, 3⟩] < 0.7999 := by
  have hmid : clusterMidpoint [(⟨0, 0, 0⟩ : Vec3), ⟨0, 0, 0⟩, ⟨0, 0, 3⟩]
      = ⟨0, 0, 1⟩ := by
    ext <;> simp [clusterMidpoint, List.foldl]
  have h1 : ((⟨0, 0, 0⟩ : Vec3) - ⟨0, 0, 1⟩).norm = 1 := by
    simp [Vec3.norm, Vec3.dot]
  have h2 : ((⟨0, 0, 3⟩ : Vec3) - ⟨0, 0, 1⟩).norm = 2 := by
    rw [Vec3.norm, show ((⟨0, 0, 3⟩ : Vec3) - ⟨0, 0, 1⟩).dot
      ((⟨0, 0, 3⟩ : Vec3) - ⟨0, 0, 1⟩) = 2 ^ 2 by norm_num [Vec3.dot],
      Real.sqrt_sq (by norm_num : (0 : ℝ) ≤ 2)]
  have hscale : computeScale [(⟨0, 0, 0⟩ : Vec3), ⟨0, 0, 0⟩, ⟨0, 0, 3⟩]
      = 4 / 3 := by
    rw [computeScale]
    simp [hmid, h1, h2]
    norm_num
  refine ⟨by norm_num, by simp, ?_⟩
  rw [hmid, h1, hscale]
  norm_num

/-- C9 amended: with exactly one member the scale is exactly 0; with any
other member count the scale is the mean distance of the members to the
midpoint, i.e. the distances sum to (number of members) * scale; the band
[0.7999, 1.2111] of the original claim is only an empirical property of
random point sets and fails for degenerate configurations. -/
theorem computeScale_amended (v : Vec3) (pts : List Vec3)
    (h : pts.length ≠ 1) :
    computeScale [v] = 0 ∧
    (pts.map (fun p => (p - clusterMidpoint pts).norm)).sum
      = (pts.length : ℝ) * computeScale pts := by
  constructor
  · simp [computeScale]
  · rw [computeScale, if_neg h]
    by_cases h0 : pts.length = 0
    · rw [List.length_eq_zero.mp h0]
      simp
    · have hne : (pts.length : ℝ) ≠ 0 := Nat.cast_ne_zero.mpr h0
      field_simp

/-- Witness for the amended C9 at a concrete two-member cluster. -/
theorem computeScale_amended_witness :
    computeScale [(⟨5, 5, 5⟩ : Vec3)] = 0 ∧
    (([(⟨0, 0, 0⟩ : Vec3), ⟨2, 0, 0⟩]).map
        (fun p => (p - clusterMidpoint [(⟨0, 0, 0⟩ : Vec3), ⟨2, 0, 0⟩]).norm)).sum
      = (([(⟨0, 0, 0⟩ : Vec3), ⟨2, 0, 0⟩]).length : ℝ)
          * computeScale [(⟨0, 0, 0⟩ : Vec3), ⟨2, 0, 0⟩] :=
  computeScale_amended ⟨5, 5, 5⟩ [⟨0, 0, 0⟩, ⟨2, 0, 0⟩] (by norm_num)
